import Mathlib

/-!
Shallow embedding of `src/main.py` (class `EmployeeDatabase`): the cleaning
and ingestion pipeline (`clean_data`, `index_data`), the Elasticsearch call
wrappers (`search_by_column`, `del_emp_by_id`) and the collection schema from
`create_collection`, together with theorems checking the specification's
claims about them.
-/

set_option linter.unusedVariables false

namespace EmployeeDB

/-- A single cell of the tabular batch: raw strings from the CSV, numeric
values produced by `astype(float)`, datetimes produced by `pd.to_datetime`,
and the null value (pandas `NaN` / `NaT` / `None`). -/
inductive Cell where
  | s (v : String)
  | num (v : ℚ)
  | date (v : Nat)
  | null
  deriving DecidableEq, Repr

/-- A row of the DataFrame: an association list from column name to cell,
mirroring `document.to_dict()`. -/
abbrev Row := List (String × Cell)

/-- The DataFrame as a list of rows. -/
abbrev DF := List Row

/-- Column lookup in a row (`document[col]`); `none` is a `KeyError`. -/
def Row.get : Row → String → Option Cell
  | [], _ => none
  | (k, v) :: t, k' => if k = k' then some v else Row.get t k'

/-- Column assignment in a row (`df[col] = ...` restricted to this row):
replaces the first binding of the key, appending when absent. -/
def Row.set : Row → String → Cell → Row
  | [], k, v => [(k, v)]
  | (k', v') :: t, k, v => if k' = k then (k, v) :: t else (k', v') :: Row.set t k v

/-- `True` exactly for the null cell (`pd.isnull`). -/
def isNullCell : Cell → Bool
  | .null => true
  | _ => false

/-- Remove every dollar sign and comma, as the regex replacements
`{r\x27\$\x27: \x27\x27, r\x27,\x27: \x27\x27}` do on one string. -/
def stripMoney (v : String) : String :=
  String.mk (v.toList.filter fun c => c != '$' && c != ',')

/-- Remove every percent sign, as the regex replacement on `Bonus %` does. -/
def stripPct (v : String) : String :=
  String.mk (v.toList.filter fun c => c != '%')

/-- Value of a digit string, most significant first. -/
def digitsVal (l : List Char) : Nat :=
  l.foldl (fun a c => a * 10 + (c.toNat - 48)) 0

/-- Negate when the flag is set (sign handling of `float`). -/
def condNeg (b : Bool) (q : ℚ) : ℚ := if b then -q else q

/-- Strip leading and trailing whitespace from a character list. -/
def trimChars (cs : List Char) : List Char :=
  ((cs.dropWhile Char.isWhitespace).reverse.dropWhile Char.isWhitespace).reverse

/-- Split a character list at every occurrence of the separator, like
`String.split` on a single character. -/
def splitChar (c : Char) : List Char → List (List Char)
  | [] => [[]]
  | x :: t =>
      match splitChar c t with
      | [] => [[]]
      | h :: r => if x = c then [] :: h :: r else (x :: h) :: r

/-- Python's `float` constructor on the decimal literals that occur here:
optional surrounding whitespace, optional sign, digits with an optional
fractional part. `none` models the `ValueError` raised on anything else. -/
def parseFloat (v : String) : Option ℚ :=
  let cs := trimChars v.toList
  let p : Bool × List Char :=
    match cs with
    | '-' :: t => (true, t)
    | '+' :: t => (false, t)
    | _ => (false, cs)
  let ip := p.2.takeWhile Char.isDigit
  let rest := p.2.dropWhile Char.isDigit
  match rest with
  | [] => if ip.isEmpty then none else some (condNeg p.1 (digitsVal ip))
  | '.' :: t =>
      let fp := t.takeWhile Char.isDigit
      if (t.dropWhile Char.isDigit).isEmpty && !(ip.isEmpty && fp.isEmpty) then
        some (condNeg p.1 ((digitsVal ip : ℚ) + (digitsVal fp : ℚ) / (10 : ℚ) ^ fp.length))
      else none
  | _ => none

/-- A nonempty all-digit character list. -/
def allDigits (v : List Char) : Bool :=
  !v.isEmpty && v.all Char.isDigit

/-- Encode a calendar date as a number, checking the field ranges. -/
def mkDateCode (y m d : Nat) : Option Nat :=
  if 1 ≤ m && m ≤ 12 && 1 ≤ d && d ≤ 31 && 1 ≤ y then
    some (y * 10000 + m * 100 + d)
  else none

/-- The datetime parser behind `pd.to_datetime`, restricted to the formats of
the data set (`M/D/YYYY` and `YYYY-MM-DD`); anything else fails to parse.
Only the success/failure split matters to the claims. -/
def parseDate (v : String) : Option Nat :=
  let t := trimChars v.toList
  match splitChar '/' t with
  | [m, d, y] =>
      if allDigits m && allDigits d && allDigits y && y.length == 4 then
        mkDateCode (digitsVal y) (digitsVal m) (digitsVal d)
      else none
  | _ =>
      match splitChar '-' t with
      | [y, m, d] =>
          if allDigits m && allDigits d && allDigits y && y.length == 4 then
            mkDateCode (digitsVal y) (digitsVal m) (digitsVal d)
          else none
      | _ => none

/-- `Series.replace` with the dollar/comma regexes on one cell: only string
cells are rewritten, every other cell is untouched. -/
def replaceMoney : Cell → Cell
  | .s v => .s (stripMoney v)
  | c => c

/-- `Series.replace` with the percent regex on one cell. -/
def replacePct : Cell → Cell
  | .s v => .s (stripPct v)
  | c => c

/-- `astype(float)` on one cell: parse string cells (a malformed string raises
`ValueError`, modelled as `none`), keep numeric cells, keep null as `NaN`;
a datetime cell cannot be cast and also raises. -/
def toFloatCell : Cell → Option Cell
  | .s v => (parseFloat v).map .num
  | .num v => some (.num v)
  | .null => some .null
  | .date _ => none

/-- `pd.to_datetime(..., errors=coerce)` on one cell: strings parse to a date
or coerce to `NaT` (null) when unparsable; null stays null; a number is read
as an epoch offset; a datetime stays itself. Total: coercion never raises. -/
def toDatetime : Cell → Cell
  | .s v =>
      match parseDate v with
      | some d => .date d
      | none => .null
  | .num v => .date v.num.toNat
  | .date d => .date d
  | .null => .null

/-- A word character of the regex `\w`, over the ASCII alphabet of the data:
alphanumeric or underscore. -/
def isWordChar (c : Char) : Bool := c.isAlphanum || c = '_'

/-- `.str.replace` removing `[^\w\s]` on one cell: string cells keep exactly
their word and whitespace characters; the `.str` accessor turns every
non-string cell into null. -/
def replaceNonWord : Cell → Cell
  | .s v => .s (String.mk (v.toList.filter fun c => isWordChar c || c.isWhitespace))
  | _ => .null

/-- One row of `clean_data` (src/main.py lines 33-38): the six column
assignments in source order. `none` models an uncaught exception: a missing
column (`KeyError`) or a failed float conversion (`ValueError`). -/
def cleanRow (r : Row) : Option Row := do
  let sal ← Row.get r "Annual Salary"
  let sal2 ← toFloatCell (replaceMoney sal)
  let r1 := Row.set r "Annual Salary" sal2
  let bon ← Row.get r1 "Bonus %"
  let bon2 ← toFloatCell (replacePct bon)
  let r2 := Row.set r1 "Bonus %" bon2
  let hd ← Row.get r2 "Hire Date"
  let r3 := Row.set r2 "Hire Date" (toDatetime hd)
  let ed ← Row.get r3 "Exit Date"
  let r4 := Row.set r3 "Exit Date" (toDatetime ed)
  let fn ← Row.get r4 "Full Name"
  let r5 := Row.set r4 "Full Name" (replaceNonWord fn)
  let jt ← Row.get r5 "Job Title"
  return Row.set r5 "Job Title" (replaceNonWord jt)

/-- `cleanRow` with every column read taken on the original row: the six
updated columns are pairwise distinct, so the later reads see the original
cells (proved below as `cleanRow_eq_spec`). -/
def cleanRowSpec (r : Row) : Option Row := do
  let sal ← Row.get r "Annual Salary"
  let sal2 ← toFloatCell (replaceMoney sal)
  let bon ← Row.get r "Bonus %"
  let bon2 ← toFloatCell (replacePct bon)
  let hd ← Row.get r "Hire Date"
  let ed ← Row.get r "Exit Date"
  let fn ← Row.get r "Full Name"
  let jt ← Row.get r "Job Title"
  return Row.set (Row.set (Row.set (Row.set (Row.set (Row.set r
    "Annual Salary" sal2) "Bonus %" bon2)
    "Hire Date" (toDatetime hd)) "Exit Date" (toDatetime ed))
    "Full Name" (replaceNonWord fn)) "Job Title" (replaceNonWord jt)

/-- Apply a fallible function to every element in order; the first failure
aborts the whole traversal (an uncaught exception in a loop). -/
def mapOption {α β : Type} (f : α → Option β) : List α → Option (List β)
  | [] => some []
  | x :: t => do
      let y ← f x
      let r ← mapOption f t
      return y :: r

/-- `clean_data` on the whole batch. pandas applies each column assignment to
every row; an exception anywhere is fatal for the batch, so the batch cleans
exactly when every row does. -/
def clean_data (df : DF) : Option DF := mapOption cleanRow df

/-- Any cell of any row is null (`df.isnull().values.any()`). -/
def hasNull (df : DF) : Bool :=
  df.any fun r => r.any fun p => isNullCell p.2

/-- `df.drop(columns=[c])` row-wise: remove the column's binding. -/
def dropCol (c : String) (df : DF) : DF :=
  df.map fun r => r.filter fun p => p.1 != c

/-- `drop_duplicates(subset=[k])` with the default `keep=first`: a row is kept
when its key cell has not occurred before; pandas treats two `NaN` keys as
duplicates of each other, which cell equality reproduces. -/
def dedupBy (k : String) : List (Option Cell) → DF → DF
  | _, [] => []
  | seen, r :: t =>
      if Row.get r k ∈ seen then dedupBy k seen t
      else r :: dedupBy k (Row.get r k :: seen) t

/-- `df.drop_duplicates(subset=[k])` on the batch. -/
def drop_duplicates (k : String) (df : DF) : DF := dedupBy k [] df

/-- Observable effect of one pass of the `index_data` loop body, and of the
batch-level rejection. -/
inductive Event where
  | rejectedNull
  | skippedNullId
  | upserted (id : Cell) (doc : Row)
  deriving DecidableEq, Repr

/-- The `index_data` loop body on one row: read `Employee ID` (a missing
column raises), skip on null, otherwise upsert keyed by the identifier. -/
def rowEvent (r : Row) : Option Event :=
  (Row.get r "Employee ID").map fun c =>
    if isNullCell c then Event.skippedNullId else Event.upserted c r

/-- `index_data` (src/main.py lines 41-57) on the in-memory batch read from
the CSV (file input is outside the model): drop the excluded column,
deduplicate on `Employee ID`, clean, reject the whole batch when any cell is
null, otherwise run the upsert loop. `none` models an uncaught exception. -/
def index_data (exclude : String) (df : DF) : Option (List Event) := do
  let df1 := dropCol exclude df
  let df2 := drop_duplicates "Employee ID" df1
  let df3 ← clean_data df2
  if hasNull df3 then
    return [Event.rejectedNull]
  else
    mapOption rowEvent df3

/-- Number of upsert calls in a trace. -/
def countUpserts (evs : List Event) : Nat :=
  evs.countP fun e =>
    match e with
    | .upserted _ _ => true
    | _ => false

/-! ### Reference semantics of the call to `clean_data`

Python passes the DataFrame by object reference and the pandas column
assignments `df[col] = ...` write into that object, so the call
`df = self.clean_data(df)` is modelled against a store of DataFrame
objects addressed by position. -/

/-- A store of DataFrame objects; a reference is a position in the store. -/
structure Heap where
  dfs : List DF
  deriving DecidableEq, Repr

/-- The call `self.clean_data(df)` under Python reference semantics: the six
column assignments write into the referenced object, and the function returns
the reference it was given. `none` models a raised exception or an invalid
reference. -/
def clean_data_call (h : Heap) (ref : Nat) : Option (Heap × Nat) :=
  match h.dfs.get? ref with
  | none => none
  | some df =>
      match clean_data df with
      | none => none
      | some df2 => some (⟨h.dfs.set ref df2⟩, ref)

/-! ### The delete wrapper -/

/-- The search engine's visible state for the delete call: which (collection,
document id) addresses exist. -/
abbrev EsStore := List (String × String)

/-- Exceptions of the engine client: `NotFoundError`, and every other client
failure (network, server error, ...). -/
inductive EsError where
  | notFound
  | transport
  deriving DecidableEq, Repr

/-- `es.delete(index=..., id=...)`: remove the document, raising
`NotFoundError` when it is absent; `healthy = false` stands for any other
client failure, which raises a different exception. -/
def esDelete (healthy : Bool) (st : EsStore) (coll id : String) :
    Except EsError EsStore :=
  if !healthy then .error .transport
  else if (coll, id) ∈ st then .ok (st.filter fun p => p != (coll, id))
  else .error .notFound

/-- Console outcome of `del_emp_by_id`. -/
inductive DelMsg where
  | deleted (id : String)
  | notFoundMsg (id : String)
  deriving DecidableEq, Repr

/-- `del_emp_by_id` (src/main.py lines 73-78): call `es.delete` in a `try`
that catches only `NotFoundError` and reports it on the console; every other
exception propagates to the caller. -/
def del_emp_by_id (healthy : Bool) (st : EsStore) (coll id : String) :
    Except EsError (EsStore × DelMsg) :=
  match esDelete healthy st coll id with
  | .ok st2 => .ok (st2, .deleted id)
  | .error .notFound => .ok (st, .notFoundMsg id)
  | .error e => .error e

/-! ### The search wrapper and the collection schema -/

/-- The query ASTs of the engine's JSON query DSL relevant here: the analyzed
full-text `match` query and the exact term-level `term` query. -/
inductive Query where
  | matchQ (field value : String)
  | termQ (field value : String)
  deriving DecidableEq, Repr

/-- A search response: `response[hits][hits]`, the list of hit documents. -/
structure EsResponse where
  hits : List Row
  deriving DecidableEq, Repr

/-- The query body built by `search_by_column` (src/main.py lines 60-66):
a `match` clause on the given column and value. -/
def search_by_column_query (field value : String) : Query :=
  Query.matchQ field value

/-- Modelled from the spec: "search by field(collection, field, value):
exact/term match" — the exact term-level query the specification describes,
for comparison with the body the source builds. -/
def specSearchQuery (field value : String) : Query :=
  Query.termQ field value

/-- `search_by_column` (src/main.py lines 59-68): send the built query body
to the engine for the collection and return the hits of the response. The
engine itself is external and abstract. -/
def search_by_column (engine : String → Query → EsResponse)
    (coll field value : String) : List Row :=
  (engine coll (search_by_column_query field value)).hits

/-- Field types of the engine schema. -/
inductive EsType where
  | keyword
  | text
  | integer
  | float
  | date
  deriving DecidableEq, Repr

/-- The fixed field schema of `create_collection` (src/main.py lines 10-27). -/
def collectionMappings : List (String × EsType) :=
  [("Employee ID", .keyword), ("Full Name", .text), ("Job Title", .text),
   ("Department", .keyword), ("Business Unit", .text), ("Gender", .keyword),
   ("Ethnicity", .keyword), ("Age", .integer), ("Hire Date", .date),
   ("Annual Salary", .float), ("Bonus %", .float), ("Country", .text),
   ("City", .text), ("Exit Date", .date)]

/-- Type of a field in the schema. -/
def schemaType (field : String) : Option EsType :=
  (collectionMappings.find? fun p => p.1 == field).map (·.2)

/-! ### Concrete example batches

Rows shaped like the CSV of the script (the columns `clean_data` touches,
plus the identifier and the `Department` column that the first
`index_data` call excludes), together with their cleaned forms. -/

def exRow1 : Row :=
  [("Employee ID", .s "E0001"), ("Full Name", .s "John Smith"), ("Job Title", .s "Manager"),
   ("Department", .s "IT"), ("Hire Date", .s "1/2/2020"), ("Annual Salary", .s "$50,000"),
   ("Bonus %", .s "10%"), ("Exit Date", .s "3/4/2021")]

def exRow2 : Row :=
  [("Employee ID", .s "E0002"), ("Full Name", .s "Mary Jones"), ("Job Title", .s "Analyst"),
   ("Department", .s "Sales"), ("Hire Date", .s "5/6/2019"), ("Annual Salary", .s "$70,250"),
   ("Bonus %", .s "0%"), ("Exit Date", .s "2021-07-08")]

/-- A second row sharing the identifier of `exRow1`. -/
def dupRow1 : Row :=
  [("Employee ID", .s "E0001"), ("Full Name", .s "Johnny Smith"), ("Job Title", .s "Director"),
   ("Department", .s "IT"), ("Hire Date", .s "9/1/2018"), ("Annual Salary", .s "$90,000"),
   ("Bonus %", .s "15%"), ("Exit Date", .s "2020-01-31")]

/-- A row whose identifier is null but whose other cells are clean. -/
def nullIdRow : Row :=
  [("Employee ID", .null), ("Full Name", .s "Jane Doe"), ("Job Title", .s "Clerk"),
   ("Department", .s "HR"), ("Hire Date", .s "2/3/2021"), ("Annual Salary", .s "$40,000"),
   ("Bonus %", .s "5%"), ("Exit Date", .s "2022-01-02")]

/-- A row whose exit date does not parse as a date. -/
def badDateRow : Row :=
  [("Employee ID", .s "E0003"), ("Full Name", .s "Bob Brown"), ("Job Title", .s "VP"),
   ("Department", .s "IT"), ("Hire Date", .s "4/5/2017"), ("Annual Salary", .s "$88,000"),
   ("Bonus %", .s "20%"), ("Exit Date", .s "n/a")]

/-- A row whose name and title contain underscores next to punctuation. -/
def uscoreRow : Row :=
  [("Employee ID", .s "E0004"), ("Full Name", .s "A_B."), ("Job Title", .s "C_D!"),
   ("Department", .s "IT"), ("Hire Date", .s "6/7/2016"), ("Annual Salary", .s "$30,000"),
   ("Bonus %", .s "1%"), ("Exit Date", .s "2019-10-11")]

/-- `cleanRow exRow1`. -/
def exRow1Clean : Row :=
  [("Employee ID", .s "E0001"), ("Full Name", .s "John Smith"), ("Job Title", .s "Manager"),
   ("Department", .s "IT"), ("Hire Date", .date 20200102), ("Annual Salary", .num 50000),
   ("Bonus %", .num 10), ("Exit Date", .date 20210304)]

/-- `cleanRow` of `exRow1` with `Department` dropped. -/
def exRow1CleanD : Row :=
  [("Employee ID", .s "E0001"), ("Full Name", .s "John Smith"), ("Job Title", .s "Manager"),
   ("Hire Date", .date 20200102), ("Annual Salary", .num 50000), ("Bonus %", .num 10),
   ("Exit Date", .date 20210304)]

/-- `cleanRow` of `exRow2` with `Department` dropped. -/
def exRow2CleanD : Row :=
  [("Employee ID", .s "E0002"), ("Full Name", .s "Mary Jones"), ("Job Title", .s "Analyst"),
   ("Hire Date", .date 20190506), ("Annual Salary", .num 70250), ("Bonus %", .num 0),
   ("Exit Date", .date 20210708)]

/-- `cleanRow` of `nullIdRow` with `Department` dropped. -/
def nullIdRowCleanD : Row :=
  [("Employee ID", .null), ("Full Name", .s "Jane Doe"), ("Job Title", .s "Clerk"),
   ("Hire Date", .date 20210203), ("Annual Salary", .num 40000), ("Bonus %", .num 5),
   ("Exit Date", .date 20220102)]

/-- `cleanRow badDateRow`: the unparsable exit date coerced to null. -/
def badDateRowClean : Row :=
  [("Employee ID", .s "E0003"), ("Full Name", .s "Bob Brown"), ("Job Title", .s "VP"),
   ("Department", .s "IT"), ("Hire Date", .date 20170405), ("Annual Salary", .num 88000),
   ("Bonus %", .num 20), ("Exit Date", .null)]

/-- `cleanRow` of `badDateRow` with `Department` dropped. -/
def badDateRowCleanD : Row :=
  [("Employee ID", .s "E0003"), ("Full Name", .s "Bob Brown"), ("Job Title", .s "VP"),
   ("Hire Date", .date 20170405), ("Annual Salary", .num 88000), ("Bonus %", .num 20),
   ("Exit Date", .null)]

/-- `cleanRow uscoreRow`: the underscores survive, the punctuation does not. -/
def uscoreRowClean : Row :=
  [("Employee ID", .s "E0004"), ("Full Name", .s "A_B"), ("Job Title", .s "C_D"),
   ("Department", .s "IT"), ("Hire Date", .date 20160607), ("Annual Salary", .num 30000),
   ("Bonus %", .num 1), ("Exit Date", .date 20191011)]

/-! ### Row and traversal lemmas -/

theorem Row.get_set_self (r : Row) (k : String) (v : Cell) :
    Row.get (Row.set r k v) k = some v := by
  induction r with
  | nil => simp [Row.set, Row.get]
  | cons p t ih =>
      obtain ⟨k2, v2⟩ := p
      by_cases h : k2 = k <;> simp [Row.set, Row.get, h, ih]

theorem Row.get_set_ne (r : Row) {k k' : String} (v : Cell) (h : k' ≠ k) :
    Row.get (Row.set r k v) k' = Row.get r k' := by
  induction r with
  | nil => simp [Row.set, Row.get, Ne.symm h]
  | cons p t ih =>
      obtain ⟨k2, v2⟩ := p
      simp only [Row.set]
      by_cases h2 : k2 = k
      · subst h2
        simp [Row.get, Ne.symm h]
      · simp [Row.get, h2, ih]

/-- A successful lookup comes from a binding present in the row. -/
theorem Row.get_mem (r : Row) (k : String) (v : Cell) (h : Row.get r k = some v) :
    (k, v) ∈ r := by
  induction r with
  | nil => simp [Row.get] at h
  | cons p t ih =>
      obtain ⟨k2, v2⟩ := p
      by_cases h2 : k2 = k
      · subst h2
        simp [Row.get] at h
        simp [h]
      · simp [Row.get, h2] at h
        exact List.mem_cons_of_mem _ (ih h)

/-- Every output element of a successful traversal is the image of an input
element. -/
theorem mapOption_mem {α β : Type} (f : α → Option β) (l : List α) (l2 : List β)
    (h : mapOption f l = some l2) (y : β) (hy : y ∈ l2) :
    ∃ x ∈ l, f x = some y := by
  induction l generalizing l2 with
  | nil =>
      simp [mapOption] at h
      subst h
      simp at hy
  | cons x t ih =>
      simp only [mapOption, Option.bind_eq_bind, Option.bind_eq_some, Option.pure_def,
        Option.some_inj] at h
      obtain ⟨y2, hy2, t2, ht2, hl⟩ := h
      subst hl
      rcases List.mem_cons.mp hy with h | h
      · exact ⟨x, List.mem_cons_self x t, h ▸ hy2⟩
      · obtain ⟨x2, hx2, hfx2⟩ := ih t2 ht2 h
        exact ⟨x2, List.mem_cons_of_mem _ hx2, hfx2⟩

/-- A successful traversal relates input and output pointwise. -/
theorem mapOption_forall₂ {α β : Type} (f : α → Option β) (l : List α) (l2 : List β)
    (h : mapOption f l = some l2) :
    List.Forall₂ (fun x y => f x = some y) l l2 := by
  induction l generalizing l2 with
  | nil =>
      simp [mapOption] at h
      subst h
      exact List.Forall₂.nil
  | cons x t ih =>
      simp only [mapOption, Option.bind_eq_bind, Option.bind_eq_some, Option.pure_def,
        Option.some_inj] at h
      obtain ⟨y2, hy2, t2, ht2, hl⟩ := h
      subst hl
      exact List.Forall₂.cons hy2 (ih t2 ht2)

/-! ### Normal form of `cleanRow` -/

theorem cleanRow_eq_spec (r : Row) : cleanRow r = cleanRowSpec r := by
  have h1 : ∀ (r : Row) (v : Cell),
      Row.get (Row.set r "Annual Salary" v) "Bonus %" = Row.get r "Bonus %" :=
    fun r v => Row.get_set_ne r v (by decide)
  have h2 : ∀ (r : Row) (v : Cell),
      Row.get (Row.set r "Annual Salary" v) "Hire Date" = Row.get r "Hire Date" :=
    fun r v => Row.get_set_ne r v (by decide)
  have h3 : ∀ (r : Row) (v : Cell),
      Row.get (Row.set r "Bonus %" v) "Hire Date" = Row.get r "Hire Date" :=
    fun r v => Row.get_set_ne r v (by decide)
  have h4 : ∀ (r : Row) (v : Cell),
      Row.get (Row.set r "Annual Salary" v) "Exit Date" = Row.get r "Exit Date" :=
    fun r v => Row.get_set_ne r v (by decide)
  have h5 : ∀ (r : Row) (v : Cell),
      Row.get (Row.set r "Bonus %" v) "Exit Date" = Row.get r "Exit Date" :=
    fun r v => Row.get_set_ne r v (by decide)
  have h6 : ∀ (r : Row) (v : Cell),
      Row.get (Row.set r "Hire Date" v) "Exit Date" = Row.get r "Exit Date" :=
    fun r v => Row.get_set_ne r v (by decide)
  have h7 : ∀ (r : Row) (v : Cell),
      Row.get (Row.set r "Annual Salary" v) "Full Name" = Row.get r "Full Name" :=
    fun r v => Row.get_set_ne r v (by decide)
  have h8 : ∀ (r : Row) (v : Cell),
      Row.get (Row.set r "Bonus %" v) "Full Name" = Row.get r "Full Name" :=
    fun r v => Row.get_set_ne r v (by decide)
  have h9 : ∀ (r : Row) (v : Cell),
      Row.get (Row.set r "Hire Date" v) "Full Name" = Row.get r "Full Name" :=
    fun r v => Row.get_set_ne r v (by decide)
  have h10 : ∀ (r : Row) (v : Cell),
      Row.get (Row.set r "Exit Date" v) "Full Name" = Row.get r "Full Name" :=
    fun r v => Row.get_set_ne r v (by decide)
  have h11 : ∀ (r : Row) (v : Cell),
      Row.get (Row.set r "Annual Salary" v) "Job Title" = Row.get r "Job Title" :=
    fun r v => Row.get_set_ne r v (by decide)
  have h12 : ∀ (r : Row) (v : Cell),
      Row.get (Row.set r "Bonus %" v) "Job Title" = Row.get r "Job Title" :=
    fun r v => Row.get_set_ne r v (by decide)
  have h13 : ∀ (r : Row) (v : Cell),
      Row.get (Row.set r "Hire Date" v) "Job Title" = Row.get r "Job Title" :=
    fun r v => Row.get_set_ne r v (by decide)
  have h14 : ∀ (r : Row) (v : Cell),
      Row.get (Row.set r "Exit Date" v) "Job Title" = Row.get r "Job Title" :=
    fun r v => Row.get_set_ne r v (by decide)
  have h15 : ∀ (r : Row) (v : Cell),
      Row.get (Row.set r "Full Name" v) "Job Title" = Row.get r "Job Title" :=
    fun r v => Row.get_set_ne r v (by decide)
  simp only [cleanRow, cleanRowSpec, h1, h2, h3, h4, h5, h6, h7, h8, h9, h10,
    h11, h12, h13, h14, h15]

/-- Components of a successful `cleanRow`. -/
theorem cleanRow_destruct (r r' : Row) (h : cleanRow r = some r') :
    ∃ sal sal2 bon bon2 hd ed fn jt,
      Row.get r "Annual Salary" = some sal ∧ toFloatCell (replaceMoney sal) = some sal2 ∧
      Row.get r "Bonus %" = some bon ∧ toFloatCell (replacePct bon) = some bon2 ∧
      Row.get r "Hire Date" = some hd ∧ Row.get r "Exit Date" = some ed ∧
      Row.get r "Full Name" = some fn ∧ Row.get r "Job Title" = some jt ∧
      r' = Row.set (Row.set (Row.set (Row.set (Row.set (Row.set r
        "Annual Salary" sal2) "Bonus %" bon2)
        "Hire Date" (toDatetime hd)) "Exit Date" (toDatetime ed))
        "Full Name" (replaceNonWord fn)) "Job Title" (replaceNonWord jt) := by
  rw [cleanRow_eq_spec] at h
  simp only [cleanRowSpec, Option.bind_eq_bind, Option.bind_eq_some, Option.pure_def,
    Option.some_inj] at h
  obtain ⟨sal, hsal, sal2, hsal2, bon, hbon, bon2, hbon2, hd, hhd, ed, hed, fn, hfn,
    jt, hjt, hr⟩ := h
  exact ⟨sal, sal2, bon, bon2, hd, ed, fn, jt, hsal, hsal2, hbon, hbon2, hhd, hed,
    hfn, hjt, hr.symm⟩

/-! ### Deduplication and batch lemmas -/

theorem dedupBy_keys_fresh (k : String) (seen : List (Option Cell)) (df : DF) :
    ((dedupBy k seen df).map (fun r => Row.get r k)).Nodup ∧
    ∀ r ∈ dedupBy k seen df, Row.get r k ∉ seen := by
  induction df generalizing seen with
  | nil => simp [dedupBy]
  | cons r t ih =>
      by_cases h : Row.get r k ∈ seen
      · simp only [dedupBy, if_pos h]
        exact ih seen
      · simp only [dedupBy, if_neg h]
        obtain ⟨hnd, hout⟩ := ih (Row.get r k :: seen)
        refine ⟨?_, ?_⟩
        · simp only [List.map_cons, List.nodup_cons]
          refine ⟨?_, hnd⟩
          intro hmem
          obtain ⟨r2, hr2, hk⟩ := List.mem_map.mp hmem
          exact hout r2 hr2 (by rw [hk]; exact List.mem_cons_self _ _)
        · intro r2 hr2
          rcases List.mem_cons.mp hr2 with rfl | hr2
          · exact h
          · exact fun hmem => hout r2 hr2 (List.mem_cons_of_mem _ hmem)

theorem dedupBy_count_key (k : String) (v : Option Cell) (df : DF) :
    ∀ (seen : List (Option Cell)), v ∉ seen → (∃ r ∈ df, Row.get r k = v) →
    (dedupBy k seen df).countP (fun r => decide (Row.get r k = v)) = 1 := by
  induction df with
  | nil => intro seen hv hin; simp at hin
  | cons r t ih =>
      intro seen hv hin
      by_cases h : Row.get r k ∈ seen
      · simp only [dedupBy, if_pos h]
        apply ih seen hv
        rcases hin with ⟨r2, hr2, hk⟩
        rcases List.mem_cons.mp hr2 with rfl | hr2
        · exact absurd (hk ▸ h) hv
        · exact ⟨r2, hr2, hk⟩
      · simp only [dedupBy, if_neg h]
        by_cases hk : Row.get r k = v
        · have h0 : (dedupBy k (Row.get r k :: seen) t).countP
              (fun r => decide (Row.get r k = v)) = 0 := by
            apply List.countP_eq_zero.mpr
            intro r2 hr2
            simp only [decide_eq_true_eq]
            intro hkk
            exact (dedupBy_keys_fresh k _ t).2 r2 hr2
              (by rw [hkk, ← hk]; exact List.mem_cons_self _ _)
          rw [List.countP_cons, h0]
          simp [hk]
        · rw [List.countP_cons]
          simp only [decide_eq_true_eq, hk, if_false, Nat.add_zero]
          apply ih
          · simp only [List.mem_cons, not_or]
            exact ⟨fun hh => hk hh.symm, hv⟩
          · rcases hin with ⟨r2, hr2, hk2⟩
            rcases List.mem_cons.mp hr2 with rfl | hr2
            · exact absurd hk2 hk
            · exact ⟨r2, hr2, hk2⟩

theorem countP_eq_of_forall₂ {α β : Type} (R : α → β → Prop) (p : α → Bool) (q : β → Bool)
    (l : List α) (l2 : List β) (h : List.Forall₂ R l l2)
    (hpq : ∀ a b, R a b → p a = q b) :
    l.countP p = l2.countP q := by
  induction h with
  | nil => rfl
  | cons hR hF ih =>
      rw [List.countP_cons, List.countP_cons, hpq _ _ hR, ih]

theorem cleanRow_get_empid (r r' : Row) (h : cleanRow r = some r') :
    Row.get r' "Employee ID" = Row.get r "Employee ID" := by
  obtain ⟨sal, sal2, bon, bon2, hd, ed, fn, jt, -, -, -, -, -, -, -, -, hr⟩ :=
    cleanRow_destruct r r' h
  subst hr
  rw [Row.get_set_ne _ _ (by decide), Row.get_set_ne _ _ (by decide),
      Row.get_set_ne _ _ (by decide), Row.get_set_ne _ _ (by decide),
      Row.get_set_ne _ _ (by decide), Row.get_set_ne _ _ (by decide)]

theorem get_dropCol_ne (r : Row) (c k : String) (h : k ≠ c) :
    Row.get (r.filter fun p => p.1 != c) k = Row.get r k := by
  induction r with
  | nil => rfl
  | cons p t ih =>
      obtain ⟨k2, v2⟩ := p
      by_cases h2 : k2 = c
      · subst h2
        have hb : (((k2, v2).1 != k2)) = false := by simp
        simp only [List.filter_cons, hb, Bool.false_eq_true, if_false]
        rw [ih]
        simp [Row.get, Ne.symm h]
      · have hb : (((k2, v2).1 != c)) = true := by simp [h2]
        simp only [List.filter_cons, hb, if_true]
        by_cases h3 : k2 = k <;> simp [Row.get, h3, ih]

theorem hasNull_false_no_null (df : DF) (h : hasNull df = false) :
    ∀ r ∈ df, ∀ p ∈ r, isNullCell p.2 = false := by
  intro r hr p hp
  by_contra hc
  rw [Bool.not_eq_false] at hc
  apply absurd h
  rw [Bool.not_eq_false, hasNull, List.any_eq_true]
  exact ⟨r, hr, List.any_eq_true.mpr ⟨p, hp, hc⟩⟩


theorem map_eq_of_forall₂ {α β γ : Type} (R : α → β → Prop) (f : α → γ) (g : β → γ)
    (l : List α) (l2 : List β) (h : List.Forall₂ R l l2)
    (hfg : ∀ a b, R a b → g b = f a) : l2.map g = l.map f := by
  induction h with
  | nil => rfl
  | cons hR hF ih => simp [hfg _ _ hR, ih]

/-- Success of `cleanRow` depends only on the presence of the six columns and
on the two numeric conversions; dates and text are handled totally. -/
theorem cleanRow_isSome_iff (r : Row) :
    (cleanRow r).isSome = true ↔
      (∃ sal sal2, Row.get r "Annual Salary" = some sal ∧
        toFloatCell (replaceMoney sal) = some sal2) ∧
      (∃ bon bon2, Row.get r "Bonus %" = some bon ∧
        toFloatCell (replacePct bon) = some bon2) ∧
      (Row.get r "Hire Date").isSome = true ∧ (Row.get r "Exit Date").isSome = true ∧
      (Row.get r "Full Name").isSome = true ∧ (Row.get r "Job Title").isSome = true := by
  rw [cleanRow_eq_spec]
  simp only [cleanRowSpec, Option.isSome_iff_exists, Option.bind_eq_bind, Option.bind_eq_some,
    Option.pure_def, Option.some_inj]
  constructor
  · rintro ⟨r', sal, hsal, sal2, hsal2, bon, hbon, bon2, hbon2, hd, hhd, ed, hed, fn, hfn,
      jt, hjt, -⟩
    exact ⟨⟨sal, sal2, hsal, hsal2⟩, ⟨bon, bon2, hbon, hbon2⟩, ⟨hd, hhd⟩, ⟨ed, hed⟩,
      ⟨fn, hfn⟩, ⟨jt, hjt⟩⟩
  · rintro ⟨⟨sal, sal2, hsal, hsal2⟩, ⟨bon, bon2, hbon, hbon2⟩, ⟨hd, hhd⟩, ⟨ed, hed⟩,
      ⟨fn, hfn⟩, ⟨jt, hjt⟩⟩
    exact ⟨_, sal, hsal, sal2, hsal2, bon, hbon, bon2, hbon2, hd, hhd, ed, hed, fn, hfn,
      jt, hjt, rfl⟩

/-! ### Claims -/

/-- Claim C1: after `clean_data`, a row whose raw salary and bonus cells are
strings holds as salary the number parsed from the raw string with dollar
signs and commas removed, and as bonus the number parsed from the raw string
with percent signs removed; the stripped strings hold no such symbol. -/
theorem clean_salary_bonus_numeric (r r' : Row) (s b : String)
    (hc : cleanRow r = some r')
    (hs : Row.get r "Annual Salary" = some (.s s))
    (hb : Row.get r "Bonus %" = some (.s b)) :
    (∃ q, parseFloat (stripMoney s) = some q ∧
      Row.get r' "Annual Salary" = some (.num q)) ∧
    (∃ q, parseFloat (stripPct b) = some q ∧
      Row.get r' "Bonus %" = some (.num q)) ∧
    (∀ c ∈ (stripMoney s).toList, c ≠ '$' ∧ c ≠ ',') ∧
    (∀ c ∈ (stripPct b).toList, c ≠ '%') := by
  obtain ⟨sal, sal2, bon, bon2, hd, ed, fn, jt, hsal, hsal2, hbon, hbon2, -, -, -, -, hr⟩ :=
    cleanRow_destruct r r' hc
  rw [hsal] at hs
  rw [hbon] at hb
  obtain rfl := Option.some_inj.mp hs.symm
  obtain rfl := Option.some_inj.mp hb.symm
  simp only [replaceMoney, toFloatCell, Option.map_eq_some'] at hsal2
  simp only [replacePct, toFloatCell, Option.map_eq_some'] at hbon2
  obtain ⟨q1, hq1, hq1e⟩ := hsal2
  obtain ⟨q2, hq2, hq2e⟩ := hbon2
  subst hr
  refine ⟨⟨q1, hq1, ?_⟩, ⟨q2, hq2, ?_⟩, ?_, ?_⟩
  · rw [Row.get_set_ne _ _ (by decide), Row.get_set_ne _ _ (by decide),
      Row.get_set_ne _ _ (by decide), Row.get_set_ne _ _ (by decide),
      Row.get_set_ne _ _ (by decide), Row.get_set_self, hq1e]
  · rw [Row.get_set_ne _ _ (by decide), Row.get_set_ne _ _ (by decide),
      Row.get_set_ne _ _ (by decide), Row.get_set_ne _ _ (by decide),
      Row.get_set_self, hq2e]
  · intro c hcm
    have h2 := (List.mem_filter.mp hcm).2
    simp only [Bool.and_eq_true, bne_iff_ne, ne_eq] at h2
    exact h2
  · intro c hcm
    have h2 := (List.mem_filter.mp hcm).2
    simpa using h2

/-- Claim C1, witness: the row of the spec example cleans to salary `50000`
and bonus `10`. -/
theorem clean_salary_bonus_numeric_witness :
    cleanRow exRow1 = some exRow1Clean ∧
    Row.get exRow1Clean "Annual Salary" = some (.num 50000) ∧
    Row.get exRow1Clean "Bonus %" = some (.num 10) := by
  obtain ⟨⟨q1, hq1, hg1⟩, ⟨q2, hq2, hg2⟩, -, -⟩ :=
    clean_salary_bonus_numeric exRow1 exRow1Clean "$50,000" "10%"
      (by decide) (by decide) (by decide)
  have e1 : parseFloat (stripMoney "$50,000") = some 50000 := by decide
  have e2 : parseFloat (stripPct "10%") = some 10 := by decide
  rw [e1] at hq1
  rw [e2] at hq2
  obtain rfl := Option.some_inj.mp hq1
  obtain rfl := Option.some_inj.mp hq2
  exact ⟨by decide, hg1, hg2⟩

/-- Claim C2: when the cleaned batch holds a null anywhere, `index_data`
stops at the batch-level check: the trace is the single rejection diagnostic
and holds zero upsert calls. -/
theorem null_batch_zero_upserts (exclude : String) (df df3 : DF)
    (hclean : clean_data (drop_duplicates "Employee ID" (dropCol exclude df)) = some df3)
    (hn : hasNull df3 = true) :
    index_data exclude df = some [Event.rejectedNull] ∧
    ∀ evs, index_data exclude df = some evs → countUpserts evs = 0 := by
  have h1 : index_data exclude df = some [Event.rejectedNull] := by
    simp [index_data, hclean, hn]
  refine ⟨h1, ?_⟩
  intro evs hevs
  rw [h1] at hevs
  obtain rfl := Option.some_inj.mp hevs
  rfl

/-- Claim C2, witness: a one-row batch whose exit date does not parse cleans
to a null cell, and the whole ingestion is rejected. -/
theorem null_batch_zero_upserts_witness :
    index_data "Department" [badDateRow] = some [Event.rejectedNull] ∧
    countUpserts [Event.rejectedNull] = 0 :=
  ⟨(null_batch_zero_upserts "Department" [badDateRow] [badDateRowCleanD]
      (by decide) (by decide)).1,
   (null_batch_zero_upserts "Department" [badDateRow] [badDateRowCleanD]
      (by decide) (by decide)).2 [Event.rejectedNull]
      ((null_batch_zero_upserts "Department" [badDateRow] [badDateRowCleanD]
        (by decide) (by decide)).1)⟩

/-- Claim C3: when the input batch has two or more rows sharing an identifier
cell, exactly one row with that identifier survives into the cleaned batch of
`index_data`, and the identifiers of the cleaned batch are pairwise distinct. -/
theorem dedup_unique_identifier (exclude : String) (df df3 : DF) (v : Option Cell)
    (hex : exclude ≠ "Employee ID")
    (hclean : clean_data (drop_duplicates "Employee ID" (dropCol exclude df)) = some df3)
    (hdup : 2 ≤ df.countP fun r => decide (Row.get r "Employee ID" = v)) :
    df3.countP (fun r => decide (Row.get r "Employee ID" = v)) = 1 ∧
    (df3.map fun r => Row.get r "Employee ID").Nodup := by
  have hF : List.Forall₂ (fun a b => cleanRow a = some b)
      (drop_duplicates "Employee ID" (dropCol exclude df)) df3 :=
    mapOption_forall₂ cleanRow _ df3 hclean
  have hkey : ∀ a b, cleanRow a = some b →
      (fun r => decide (Row.get r "Employee ID" = v)) a
        = (fun r => decide (Row.get r "Employee ID" = v)) b := by
    intro a b hab
    simp only
    rw [cleanRow_get_empid a b hab]
  constructor
  · rw [← countP_eq_of_forall₂ _ _ _ _ _ hF hkey]
    apply dedupBy_count_key
    · simp
    · have hpos : 0 < df.countP fun r => decide (Row.get r "Employee ID" = v) := by omega
      obtain ⟨r, hr, hp⟩ := List.countP_pos_iff.mp hpos
      refine ⟨r.filter fun p => p.1 != exclude, ?_, ?_⟩
      · exact List.mem_map.mpr ⟨r, hr, rfl⟩
      · rw [get_dropCol_ne r exclude "Employee ID" (Ne.symm hex)]
        simpa using hp
  · have hmap : df3.map (fun r => Row.get r "Employee ID")
        = (drop_duplicates "Employee ID" (dropCol exclude df)).map
            (fun r => Row.get r "Employee ID") := by
      apply map_eq_of_forall₂ _ _ _ _ _ hF
      intro a b hab
      exact cleanRow_get_empid a b hab
    rw [hmap]
    exact (dedupBy_keys_fresh "Employee ID" [] (dropCol exclude df)).1

/-- Claim C3, witness: of the two rows with identifier `E0001`, one survives. -/
theorem dedup_unique_identifier_witness :
    ([exRow1CleanD, exRow2CleanD] : DF).countP
      (fun r => decide (Row.get r "Employee ID" = some (Cell.s "E0001"))) = 1 ∧
    (([exRow1CleanD, exRow2CleanD] : DF).map fun r => Row.get r "Employee ID").Nodup :=
  dedup_unique_identifier "Department" [exRow1, dupRow1, exRow2]
    [exRow1CleanD, exRow2CleanD] (some (Cell.s "E0001"))
    (by decide) (by decide) (by decide)

/-- Claim C4, counterexample: a batch holding a null-identifier row next to a
fully clean row is rejected wholesale — the clean row is not ingested and no
individual skip diagnostic occurs, against the claim that ingestion of the
remaining rows continues. -/
theorem null_id_not_individually_skipped_cex :
    index_data "Department" [nullIdRow, exRow1] = some [Event.rejectedNull] ∧
    Event.skippedNullId ∉ [Event.rejectedNull] ∧
    countUpserts [Event.rejectedNull] = 0 := by
  refine ⟨by decide, by decide, rfl⟩

/-- Claim C4, amended: a row with a null identifier is indeed never passed to
the upsert call, but not by an individual skip: the batch-level null check
rejects the entire batch, so no row of that batch is ingested. -/
theorem null_id_never_upserted (exclude : String) (df df3 : DF) (evs : List Event)
    (hclean : clean_data (drop_duplicates "Employee ID" (dropCol exclude df)) = some df3)
    (h : index_data exclude df = some evs) :
    (∀ id doc, Event.upserted id doc ∈ evs → isNullCell id = false) ∧
    ((∃ r ∈ df3, Row.get r "Employee ID" = some Cell.null) →
      evs = [Event.rejectedNull] ∧ countUpserts evs = 0) := by
  constructor
  · intro id doc hmem
    simp only [index_data, Option.bind_eq_bind, Option.bind_eq_some] at h
    obtain ⟨df4, hdf4, hrest⟩ := h
    by_cases hn : hasNull df4 = true
    · simp only [hn, if_true, Option.pure_def, Option.some_inj] at hrest
      subst hrest
      simp at hmem
    · have hn2 : hasNull df4 = false := by revert hn; cases hasNull df4 <;> simp
      simp only [hn2, Bool.false_eq_true, if_false] at hrest
      obtain ⟨r, hr, hre⟩ := mapOption_mem rowEvent df4 evs hrest _ hmem
      simp only [rowEvent, Option.map_eq_some'] at hre
      obtain ⟨c, hcg, hcif⟩ := hre
      by_cases hnc : isNullCell c = true
      · rw [if_pos hnc] at hcif
        exact absurd hcif (by simp)
      · rw [if_neg hnc] at hcif
        obtain ⟨rfl, rfl⟩ := Event.upserted.inj hcif
        revert hnc
        cases isNullCell c <;> simp
  · intro hex
    obtain ⟨r, hr, hget⟩ := hex
    have hn : hasNull df3 = true := by
      rw [hasNull, List.any_eq_true]
      exact ⟨r, hr, List.any_eq_true.mpr ⟨_, Row.get_mem r _ _ hget, rfl⟩⟩
    have h1 := (null_batch_zero_upserts exclude df df3 hclean hn).1
    rw [h1] at h
    obtain rfl := Option.some_inj.mp h.symm
    exact ⟨rfl, rfl⟩

/-- Claim C4, witness: the batch with the null-identifier row produces zero
upserts. -/
theorem null_id_never_upserted_witness :
    countUpserts [Event.rejectedNull] = 0 :=
  ((null_id_never_upserted "Department" [nullIdRow, exRow1]
      [nullIdRowCleanD, exRow1CleanD] [Event.rejectedNull]
      (by decide) (by decide)).2
    ⟨nullIdRowCleanD, by decide, by decide⟩).2

/-- Claim C5: an unparsable hire or exit date is coerced to the null cell
rather than raising, and the success of `cleanRow` never depends on the value
stored in the date columns. -/
theorem unparsable_date_to_null (r r' : Row) (hc : cleanRow r = some r') :
    (∀ v, Row.get r "Hire Date" = some (.s v) → parseDate v = none →
      Row.get r' "Hire Date" = some Cell.null) ∧
    (∀ v, Row.get r "Exit Date" = some (.s v) → parseDate v = none →
      Row.get r' "Exit Date" = some Cell.null) ∧
    (∀ c c' : Cell, (cleanRow (Row.set r "Hire Date" c)).isSome
        = (cleanRow (Row.set r "Hire Date" c')).isSome) ∧
    (∀ c c' : Cell, (cleanRow (Row.set r "Exit Date" c)).isSome
        = (cleanRow (Row.set r "Exit Date" c')).isSome) := by
  obtain ⟨sal, sal2, bon, bon2, hd, ed, fn, jt, hsal, hsal2, hbon, hbon2, hhd, hed,
    hfn, hjt, hr⟩ := cleanRow_destruct r r' hc
  refine ⟨?_, ?_, ?_, ?_⟩
  · intro v hv hp
    rw [hhd] at hv
    obtain rfl := Option.some_inj.mp hv.symm
    subst hr
    rw [Row.get_set_ne _ _ (by decide), Row.get_set_ne _ _ (by decide),
      Row.get_set_ne _ _ (by decide), Row.get_set_self]
    simp [toDatetime, hp]
  · intro v hv hp
    rw [hed] at hv
    obtain rfl := Option.some_inj.mp hv.symm
    subst hr
    rw [Row.get_set_ne _ _ (by decide), Row.get_set_ne _ _ (by decide),
      Row.get_set_self]
    simp [toDatetime, hp]
  · intro c c'
    have g1 : ∀ (x : Cell), Row.get (Row.set r "Hire Date" x) "Annual Salary"
        = Row.get r "Annual Salary" := fun x => Row.get_set_ne r x (by decide)
    have g2 : ∀ (x : Cell), Row.get (Row.set r "Hire Date" x) "Bonus %"
        = Row.get r "Bonus %" := fun x => Row.get_set_ne r x (by decide)
    have g3 : ∀ (x : Cell), Row.get (Row.set r "Hire Date" x) "Exit Date"
        = Row.get r "Exit Date" := fun x => Row.get_set_ne r x (by decide)
    have g4 : ∀ (x : Cell), Row.get (Row.set r "Hire Date" x) "Full Name"
        = Row.get r "Full Name" := fun x => Row.get_set_ne r x (by decide)
    have g5 : ∀ (x : Cell), Row.get (Row.set r "Hire Date" x) "Job Title"
        = Row.get r "Job Title" := fun x => Row.get_set_ne r x (by decide)
    rw [Bool.eq_iff_iff, cleanRow_isSome_iff, cleanRow_isSome_iff]
    simp only [g1, g2, g3, g4, g5, Row.get_set_self, Option.isSome_some]
  · intro c c'
    have g1 : ∀ (x : Cell), Row.get (Row.set r "Exit Date" x) "Annual Salary"
        = Row.get r "Annual Salary" := fun x => Row.get_set_ne r x (by decide)
    have g2 : ∀ (x : Cell), Row.get (Row.set r "Exit Date" x) "Bonus %"
        = Row.get r "Bonus %" := fun x => Row.get_set_ne r x (by decide)
    have g3 : ∀ (x : Cell), Row.get (Row.set r "Exit Date" x) "Hire Date"
        = Row.get r "Hire Date" := fun x => Row.get_set_ne r x (by decide)
    have g4 : ∀ (x : Cell), Row.get (Row.set r "Exit Date" x) "Full Name"
        = Row.get r "Full Name" := fun x => Row.get_set_ne r x (by decide)
    have g5 : ∀ (x : Cell), Row.get (Row.set r "Exit Date" x) "Job Title"
        = Row.get r "Job Title" := fun x => Row.get_set_ne r x (by decide)
    rw [Bool.eq_iff_iff, cleanRow_isSome_iff, cleanRow_isSome_iff]
    simp only [g1, g2, g3, g4, g5, Row.get_set_self, Option.isSome_some]

/-- Claim C5, witness: the exit date `n/a` cleans to null while the row
itself cleans fine. -/
theorem unparsable_date_to_null_witness :
    Row.get badDateRowClean "Exit Date" = some Cell.null :=
  (unparsable_date_to_null badDateRow badDateRowClean (by decide)).2.1 "n/a"
    (by decide) (by decide)

/-- Claim C6, counterexample: the underscore matches the word class of the
regex, so it survives the cleaning of the name field although it is neither
alphanumeric nor whitespace. -/
theorem underscore_survives_text_clean_cex :
    cleanRow uscoreRow = some uscoreRowClean ∧
    Row.get uscoreRowClean "Full Name" = some (Cell.s "A_B") ∧
    '_' ∈ "A_B".toList ∧ '_'.isAlphanum = false ∧ '_'.isWhitespace = false := by
  refine ⟨by decide, by decide, by decide, by decide, by decide⟩

/-- Claim C6, amended: after `clean_data` the name and title fields hold only
word characters (alphanumeric or underscore) and whitespace. -/
theorem text_fields_word_chars_only (r r' : Row) (hc : cleanRow r = some r') :
    (∀ v, Row.get r' "Full Name" = some (.s v) →
      ∀ c ∈ v.toList, isWordChar c = true ∨ c.isWhitespace = true) ∧
    (∀ v, Row.get r' "Job Title" = some (.s v) →
      ∀ c ∈ v.toList, isWordChar c = true ∨ c.isWhitespace = true) := by
  obtain ⟨sal, sal2, bon, bon2, hd, ed, fn, jt, hsal, hsal2, hbon, hbon2, hhd, hed,
    hfn, hjt, hr⟩ := cleanRow_destruct r r' hc
  subst hr
  constructor
  · intro v hv c hcm
    rw [Row.get_set_ne _ _ (by decide), Row.get_set_self] at hv
    cases fn with
    | s w =>
        simp only [replaceNonWord, Cell.s.injEq, Option.some_inj] at hv
        rw [← hv] at hcm
        have h2 := (List.mem_filter.mp hcm).2
        simpa using h2
    | num q => simp [replaceNonWord] at hv
    | date d => simp [replaceNonWord] at hv
    | null => simp [replaceNonWord] at hv
  · intro v hv c hcm
    rw [Row.get_set_self] at hv
    cases jt with
    | s w =>
        simp only [replaceNonWord, Cell.s.injEq, Option.some_inj] at hv
        rw [← hv] at hcm
        have h2 := (List.mem_filter.mp hcm).2
        simpa using h2
    | num q => simp [replaceNonWord] at hv
    | date d => simp [replaceNonWord] at hv
    | null => simp [replaceNonWord] at hv

/-- Claim C6, witness: the surviving underscore is a word character. -/
theorem text_fields_word_chars_only_witness :
    isWordChar '_' = true ∨ '_'.isWhitespace = true :=
  (text_fields_word_chars_only uscoreRow uscoreRowClean (by decide)).1 "A_B"
    (by decide) '_' (by decide)

/-- Claim C7, counterexample: the column assignments write into the object
the caller passed, so after the call the passed batch no longer holds its
original content — `clean_data` does have a side effect beyond its return
value. -/
theorem clean_data_mutates_input_cex :
    clean_data_call ⟨[[exRow1], [exRow2]]⟩ 0 = some (⟨[[exRow1Clean], [exRow2]]⟩, 0) ∧
    (Heap.mk [[exRow1Clean], [exRow2]]).dfs.get? 0 ≠ some [exRow1] := by
  refine ⟨by decide, by decide⟩

/-- Claim C7, amended: `clean_data` cleans its argument in place and returns
the very reference it was given; every other object of the store is
untouched. -/
theorem clean_data_call_frame (h : Heap) (ref : Nat) (h2 : Heap) (ref2 : Nat)
    (hc : clean_data_call h ref = some (h2, ref2)) :
    ref2 = ref ∧
    (∃ df df2, h.dfs.get? ref = some df ∧ clean_data df = some df2 ∧
      h2.dfs.get? ref = some df2) ∧
    (∀ i, i ≠ ref → h2.dfs.get? i = h.dfs.get? i) := by
  cases hg : h.dfs.get? ref with
  | none =>
      simp only [clean_data_call, hg] at hc
      exact Option.noConfusion hc
  | some df =>
      simp only [clean_data_call, hg] at hc
      cases hcd : clean_data df with
      | none =>
          simp only [hcd] at hc
          exact Option.noConfusion hc
      | some df2 =>
          simp only [hcd, Option.some_inj, Prod.mk.injEq] at hc
          obtain ⟨hh2, rfl⟩ := hc
          subst hh2
          have hlt : ref < h.dfs.length := by
            rcases List.get?_eq_some.mp hg with ⟨hl, -⟩
            exact hl
          refine ⟨rfl, ⟨df, df2, rfl, hcd, ?_⟩, ?_⟩
          · exact List.get?_set_eq_of_lt df2 hlt
          · intro i hi
            exact List.get?_set_ne df2 _ (Ne.symm hi)

/-- Claim C7, witness: calling `clean_data` on the first object leaves the
second object of the store unchanged. -/
theorem clean_data_call_frame_witness :
    (Heap.mk [[exRow1Clean], [exRow2]]).dfs.get? 1
      = (Heap.mk [[exRow1], [exRow2]]).dfs.get? 1 :=
  (clean_data_call_frame ⟨[[exRow1], [exRow2]]⟩ 0 ⟨[[exRow1Clean], [exRow2]]⟩ 0
    (by decide)).2.2 1 (by decide)

/-- Claim C8: deleting an absent identifier returns normally with a distinct
not-found outcome naming the identifier, while any other client failure
propagates to the caller uncaught. -/
theorem delete_missing_reports_not_found (st : EsStore) (coll id : String) :
    ((coll, id) ∉ st → del_emp_by_id true st coll id = .ok (st, .notFoundMsg id)) ∧
    (del_emp_by_id false st coll id = .error .transport) ∧
    (∀ id2, DelMsg.notFoundMsg id ≠ DelMsg.deleted id2) := by
  refine ⟨?_, ?_, ?_⟩
  · intro habs
    simp [del_emp_by_id, esDelete, habs]
  · simp [del_emp_by_id, esDelete]
  · intro id2
    exact fun hh => DelMsg.noConfusion hh

/-- Claim C8, witness: deleting the absent id `E09999` reports not found and
keeps the store. -/
theorem delete_missing_reports_not_found_witness :
    del_emp_by_id true [("hash_nikhil", "E02003")] "hash_nikhil" "E09999"
      = .ok ([("hash_nikhil", "E02003")], .notFoundMsg "E09999") :=
  (delete_missing_reports_not_found [("hash_nikhil", "E02003")] "hash_nikhil" "E09999").1
    (by decide)

/-- Claim C9, counterexample: the body built by `search_by_column` is a
`match` clause, not the exact term-level query the specification describes;
on the text-typed `Full Name` field of the schema these two are not the same
query. -/
theorem search_query_not_term_cex :
    search_by_column_query "Full Name" "John" ≠ specSearchQuery "Full Name" "John" ∧
    search_by_column_query "Full Name" "John" = Query.matchQ "Full Name" "John" ∧
    schemaType "Full Name" = some EsType.text := by
  refine ⟨by decide, rfl, by decide⟩

/-- Claim C9, amended: `search_by_column` issues a `match` query on the given
field and value and returns the hit list of the response. -/
theorem search_by_column_issues_match (engine : String → Query → EsResponse)
    (coll field value : String) :
    search_by_column engine coll field value
      = (engine coll (Query.matchQ field value)).hits ∧
    search_by_column_query field value = Query.matchQ field value ∧
    search_by_column_query field value ≠ specSearchQuery field value := by
  refine ⟨rfl, rfl, fun hh => Query.noConfusion hh⟩

/-- Claim C10: the skip branch of the upsert loop is unreachable — no trace
of `index_data` ever holds the skip diagnostic, because a null identifier
would already have made the batch-level check reject the whole batch. -/
theorem skip_branch_unreachable (exclude : String) (df : DF) (evs : List Event)
    (h : index_data exclude df = some evs) : Event.skippedNullId ∉ evs := by
  simp only [index_data, Option.bind_eq_bind, Option.bind_eq_some] at h
  obtain ⟨df3, hdf3, hrest⟩ := h
  by_cases hn : hasNull df3 = true
  · simp only [hn, if_true, Option.pure_def, Option.some_inj] at hrest
    subst hrest
    simp
  · have hn2 : hasNull df3 = false := by revert hn; cases hasNull df3 <;> simp
    simp only [hn2, Bool.false_eq_true, if_false] at hrest
    intro hmem
    obtain ⟨r, hr, hre⟩ := mapOption_mem rowEvent df3 evs hrest _ hmem
    simp only [rowEvent, Option.map_eq_some'] at hre
    obtain ⟨c, hcg, hcif⟩ := hre
    by_cases hnc : isNullCell c = true
    · have hmm : ("Employee ID", c) ∈ r := Row.get_mem r _ c hcg
      have := hasNull_false_no_null df3 hn2 r hr _ hmm
      rw [this] at hnc
      exact Bool.false_ne_true hnc
    · rw [if_neg hnc] at hcif
      exact Event.noConfusion hcif

/-- Claim C10, witness: a fully clean two-row batch produces two upserts and
no skip. -/
theorem skip_branch_unreachable_witness :
    Event.skippedNullId ∉
      [Event.upserted (Cell.s "E0001") exRow1CleanD,
       Event.upserted (Cell.s "E0002") exRow2CleanD] :=
  skip_branch_unreachable "Department" [exRow1, exRow2]
    [Event.upserted (Cell.s "E0001") exRow1CleanD,
     Event.upserted (Cell.s "E0002") exRow2CleanD] (by decide)

end EmployeeDB
